import Mathlib

/-!
# Signal dispatch of `src/nvim/os/signal.c`

A shallow embedding of the process-level signal subsystem: the watcher set
(`signal_init`, `signal_start`, `signal_stop`, `signal_teardown`), the
reject/accept gate, `signal_name`, `deadly_signal` and the dispatch entry point
`on_signal`.

The C file is full of `#ifdef SIGxxx` blocks, so the embedding is parameterised by
a `Platform` that says which signal macros `<signal.h>` / `<uv.h>` define and with
which numbers.  Calls into collaborators (logging, `ml_sync_all`, `apply_autocmds`,
`preserve_exit`) are recorded, in order, in a trace kept in the state.
-/

namespace NvimSignal

/-! ## Platform: the macros the preprocessor sees -/

/-- The build platform.  `SIGTERM` and `SIGHUP` are used unconditionally by the
source; the other four signals sit behind `#ifdef` and are `none` where the macro
is not defined.  `WIN32` guards the signal-mask reset of `signal_init`, `NDEBUG`
turns `assert` into nothing, and `IOSIZE` is `sizeof(IObuff)` (declared in
`globals.h`). -/
structure Platform where
  WIN32 : Bool
  NDEBUG : Bool
  SIGHUP : Nat
  SIGTERM : Nat
  SIGPIPE : Option Nat
  SIGQUIT : Option Nat
  SIGPWR : Option Nat
  SIGUSR1 : Option Nat
  IOSIZE : Nat
deriving DecidableEq, Repr

/-- The signal numbers the platform defines, in the order of the `case` labels of
`on_signal`. -/
def Platform.monitored (P : Platform) : List Nat :=
  P.SIGPWR.toList ++ P.SIGPIPE.toList ++ [P.SIGTERM] ++ P.SIGQUIT.toList ++ [P.SIGHUP]
    ++ P.SIGUSR1.toList

/-- A platform on which the file compiles: `case` labels of one `switch` are
pairwise distinct. -/
def Platform.WF (P : Platform) : Prop := P.monitored.Nodup

instance (P : Platform) : Decidable P.WF := by
  unfold Platform.WF; infer_instance

/-- Linux on x86: every signal of the file is defined. -/
def linux : Platform where
  WIN32 := false
  NDEBUG := false
  SIGHUP := 1
  SIGTERM := 15
  SIGPIPE := some 13
  SIGQUIT := some 3
  SIGPWR := some 30
  SIGUSR1 := some 10
  IOSIZE := 1025

/-- Windows: `SIGTERM` comes from the C runtime and `SIGHUP` from `<uv.h>`;
`SIGPIPE`, `SIGQUIT`, `SIGPWR` and `SIGUSR1` are not defined. -/
def win32 : Platform where
  WIN32 := true
  NDEBUG := false
  SIGHUP := 1
  SIGTERM := 15
  SIGPIPE := none
  SIGQUIT := none
  SIGPWR := none
  SIGUSR1 := none
  IOSIZE := 1025

/-! ## Data model -/

/-- The callbacks this file hands to the event loop: only `on_signal`. -/
inductive signal_cb where
  | on_signal
deriving DecidableEq, Repr

/-- Modelled from the spec: the `SignalWatcher` type of `nvim/event/signal.h`, which
is not part of the sources at hand.  The spec gives a watcher "the signal number it
is bound to (or unbound), an opaque handle into the event loop, and a reference to
the callback to invoke on delivery"; `registered` says whether the handle is
currently registered with the loop (created and not yet released). -/
structure SignalWatcher where
  registered : Bool
  signum : Option Nat
  cb : Option signal_cb
deriving DecidableEq, Repr

/-- Severity of a log record: `WLOG` and `ELOG`. -/
inductive LogLevel where
  | warn
  | error
deriving DecidableEq, Repr

/-- The part of a buffer (`buf_T`) that `on_signal` reads: its identity and
`b_fname` (`NULL` for a buffer without a name). -/
structure Buf where
  handle : Nat
  b_fname : Option String
deriving DecidableEq, Repr

/-- Autocommand events; this file only raises `EVENT_SIGNAL`. -/
inductive Event where
  | EVENT_SIGNAL
deriving DecidableEq, Repr

/-- One call into a collaborator, with its arguments.  `preserve_exit` takes no
argument but reads the globals, so its record carries the values of `v_dying`,
`v:dying` and `IObuff` at the moment of the call. -/
inductive Call where
  | pthread_sigmask_clear
  | log (level : LogLevel) (msg : String)
  | ml_sync_all (check_file check_char do_fsync : Bool)
  | apply_autocmds (event : Event) (fname : String) (fname_io : Option String)
      (force : Bool) (buf : Buf)
  | preserve_exit (v_dying VV_DYING : Int) (IObuff : String)
deriving DecidableEq, Repr

/-- Indices of the `v:` variables; this file only writes `v:dying`. -/
inductive VimVarIndex where
  | VV_DYING
deriving DecidableEq, Repr

/-- The globals the file reads and writes, and the trace of the calls made so far
(oldest first).  `spwr` only exists where `SIGPWR` is defined; on other platforms
the field is never looked at. -/
structure State where
  spipe : SignalWatcher
  shup : SignalWatcher
  squit : SignalWatcher
  sterm : SignalWatcher
  susr1 : SignalWatcher
  spwr : SignalWatcher
  rejecting_deadly : Bool
  v_dying : Int
  VV_DYING : Int
  IObuff : String
  curbuf : Buf
  trace : List Call
deriving DecidableEq, Repr

/-- A watcher in static storage before `signal_watcher_init`. -/
def SignalWatcher.zero : SignalWatcher where
  registered := false
  signum := none
  cb := none

/-- The state at program start: statics are zero, `v_dying` is 0, nothing has been
called. -/
def State.initial (curbuf : Buf) : State where
  spipe := SignalWatcher.zero
  shup := SignalWatcher.zero
  squit := SignalWatcher.zero
  sterm := SignalWatcher.zero
  susr1 := SignalWatcher.zero
  spwr := SignalWatcher.zero
  rejecting_deadly := false
  v_dying := 0
  VV_DYING := 0
  IObuff := ""
  curbuf := curbuf
  trace := []

/-! ## Collaborators -/

/-- Modelled from the spec: `signal_watcher_init` of `nvim/event/signal.c` (not in
the sources at hand): the watcher is "created and registered with the loop at
subsystem initialization (unbound)". -/
def signal_watcher_init (_w : SignalWatcher) : SignalWatcher where
  registered := true
  signum := none
  cb := none

/-- Modelled from the spec: `signal_watcher_start` of `nvim/event/signal.c` (not in
the sources at hand): the watcher is "bound to a concrete signal number and callback
at start"; binding a bound watcher again just rebinds it. -/
def signal_watcher_start (w : SignalWatcher) (cb : signal_cb) (signum : Nat) :
    SignalWatcher :=
  { w with signum := some signum, cb := some cb }

/-- Modelled from the spec: `signal_watcher_stop` of `nvim/event/signal.c` (not in
the sources at hand): the watcher is "unbound (but not destroyed) at stop". -/
def signal_watcher_stop (w : SignalWatcher) : SignalWatcher :=
  { w with signum := none }

/-- Modelled from the spec: `signal_watcher_close` of `nvim/event/signal.c` (not in
the sources at hand): the handle is "destroyed and released". -/
def signal_watcher_close (w : SignalWatcher) : SignalWatcher :=
  { w with registered := false }

/-- Modelled from the spec: `set_vim_var_nr` of `nvim/eval.c` (not in the sources at
hand), the "variable-set primitive (exposes `DyingState` externally)". -/
def set_vim_var_nr (idx : VimVarIndex) (val : Int) (s : State) : State :=
  match idx with
  | .VV_DYING => { s with VV_DYING := val }

/-- Append one collaborator call to the trace. -/
def State.call (s : State) (c : Call) : State :=
  { s with trace := s.trace ++ [c] }

/-- C `snprintf(buf, size, ...)` once the format has been expanded to `text`: at most
`size - 1` characters are stored (the terminating NUL takes the last place), and
nothing is stored when `size` is 0. -/
def snprintf (buf : String) (size : Nat) (text : String) : String :=
  if size = 0 then buf else String.mk (text.data.take (size - 1))

/-- Expansion of `%d`. -/
def fmt_d (n : Int) : String := toString n

/-! ## The watcher set -/

/-- `signal_start` (lines 76-92). -/
def signal_start (P : Platform) (s : State) : State :=
  let s := match P.SIGPIPE with
    | some n => { s with spipe := signal_watcher_start s.spipe .on_signal n }
    | none => s
  let s := { s with shup := signal_watcher_start s.shup .on_signal P.SIGHUP }
  let s := match P.SIGQUIT with
    | some n => { s with squit := signal_watcher_start s.squit .on_signal n }
    | none => s
  let s := { s with sterm := signal_watcher_start s.sterm .on_signal P.SIGTERM }
  let s := match P.SIGPWR with
    | some n => { s with spwr := signal_watcher_start s.spwr .on_signal n }
    | none => s
  match P.SIGUSR1 with
  | some n => { s with susr1 := signal_watcher_start s.susr1 .on_signal n }
  | none => s

/-- `signal_init` (lines 36-59).  `mask_ok` is whether `pthread_sigmask` returned 0;
it is only consulted off Windows. -/
def signal_init (P : Platform) (mask_ok : Bool) (s : State) : State :=
  let s := if P.WIN32 then s else
    let s := s.call .pthread_sigmask_clear
    if mask_ok then s
    else s.call (.log .error "Could not unblock signals, nvim might behave strangely.")
  let s := { s with spipe := signal_watcher_init s.spipe }
  let s := { s with shup := signal_watcher_init s.shup }
  let s := { s with squit := signal_watcher_init s.squit }
  let s := { s with sterm := signal_watcher_init s.sterm }
  let s := if P.SIGPWR.isSome then { s with spwr := signal_watcher_init s.spwr } else s
  let s := if P.SIGUSR1.isSome then { s with susr1 := signal_watcher_init s.susr1 } else s
  signal_start P s

/-- `signal_stop` (lines 94-110). -/
def signal_stop (P : Platform) (s : State) : State :=
  let s := if P.SIGPIPE.isSome then { s with spipe := signal_watcher_stop s.spipe } else s
  let s := { s with shup := signal_watcher_stop s.shup }
  let s := if P.SIGQUIT.isSome then { s with squit := signal_watcher_stop s.squit } else s
  let s := { s with sterm := signal_watcher_stop s.sterm }
  let s := if P.SIGPWR.isSome then { s with spwr := signal_watcher_stop s.spwr } else s
  if P.SIGUSR1.isSome then { s with susr1 := signal_watcher_stop s.susr1 } else s

/-- `signal_teardown` (lines 61-74). -/
def signal_teardown (P : Platform) (s : State) : State :=
  let s := signal_stop P s
  let s := { s with spipe := signal_watcher_close s.spipe }
  let s := { s with shup := signal_watcher_close s.shup }
  let s := { s with squit := signal_watcher_close s.squit }
  let s := { s with sterm := signal_watcher_close s.sterm }
  let s := if P.SIGPWR.isSome then { s with spwr := signal_watcher_close s.spwr } else s
  if P.SIGUSR1.isSome then { s with susr1 := signal_watcher_close s.susr1 } else s

/-! ## The gate -/

/-- `signal_reject_deadly` (lines 112-115). -/
def signal_reject_deadly (s : State) : State :=
  { s with rejecting_deadly := true }

/-- `signal_accept_deadly` (lines 117-120). -/
def signal_accept_deadly (s : State) : State :=
  { s with rejecting_deadly := false }

/-! ## Dispatch -/

/-- Does `signum` match the `case` label of an `#ifdef`-guarded signal?  Never, when
the macro is not defined. -/
def is_case (label : Option Nat) (signum : Int) : Bool :=
  match label with
  | some n => signum = (n : Int)
  | none => false

/-- `signal_name` (lines 122-148). -/
def signal_name (P : Platform) (signum : Int) : String :=
  if is_case P.SIGPWR signum then "SIGPWR"
  else if is_case P.SIGPIPE signum then "SIGPIPE"
  else if signum = (P.SIGTERM : Int) then "SIGTERM"
  else if is_case P.SIGQUIT signum then "SIGQUIT"
  else if signum = (P.SIGHUP : Int) then "SIGHUP"
  else if is_case P.SIGUSR1 signum then "SIGUSR1"
  else "Unknown"

/-- `deadly_signal` (lines 155-168).  `preserve_exit` is recorded with the globals as
they are when it is called.  In normal operation `preserve_exit` ends the process;
the record is then the last entry of the trace, and letting the handler return
afterwards also covers a `preserve_exit` that comes back. -/
def deadly_signal (P : Platform) (signum : Int) (s : State) : State :=
  let s := set_vim_var_nr .VV_DYING 1 s
  let s := { s with v_dying := 1 }
  let s := s.call (.log .warn
    ("got signal " ++ fmt_d signum ++ " (" ++ signal_name P signum ++ ")"))
  let text := "Vim: Caught deadly signal \x27" ++ signal_name P signum ++ "\x27\r\n"
  let s := { s with IObuff := snprintf s.IObuff P.IOSIZE text }
  s.call (.preserve_exit s.v_dying s.VV_DYING s.IObuff)

/-- `on_signal` (lines 170-205).  The `handle` and `data` parameters are not used by
the body and are left out.  `none` is the failure of `assert(signum >= 0)`, which
only a build without `NDEBUG` checks. -/
def on_signal (P : Platform) (signum : Int) (s : State) : Option State :=
  if signum < 0 && !P.NDEBUG then none
  else if is_case P.SIGPWR signum then
    some (s.call (.ml_sync_all false false true))
  else if is_case P.SIGPIPE signum then
    some s
  else if signum = (P.SIGTERM : Int) || is_case P.SIGQUIT signum
      || signum = (P.SIGHUP : Int) then
    if !s.rejecting_deadly then some (deadly_signal P signum s) else some s
  else if is_case P.SIGUSR1 signum then
    some (s.call (.apply_autocmds .EVENT_SIGNAL "SIGUSR1" s.curbuf.b_fname true s.curbuf))
  else
    some (s.call (.log .error ("invalid signal: " ++ fmt_d signum)))

/-- The three `case` labels that fall into the deadly branch of `on_signal`, each
with the literal that the matching `case` of `signal_name` returns. -/
def deadly_labels (P : Platform) : List (Option Nat × String) :=
  [(some P.SIGTERM, "SIGTERM"), (P.SIGQUIT, "SIGQUIT"), (some P.SIGHUP, "SIGHUP")]

/-- A named buffer, for concrete states. -/
def sample_buf : Buf where
  handle := 1
  b_fname := some "notes.txt"

/-- Number of `preserve_exit` calls recorded in a trace. -/
def preserve_exit_calls (t : List Call) : Nat :=
  (t.filter fun c => match c with
    | .preserve_exit _ _ _ => true
    | _ => false).length

/-! ## The event loop seen from this file -/

/-- The watchers that exist on the platform, in the order of their declaration
(lines 25-28); `spwr` is declared under `#ifdef SIGPWR`. -/
def watchers (P : Platform) (s : State) : List SignalWatcher :=
  [s.spipe, s.shup, s.squit, s.sterm, s.susr1] ++ (if P.SIGPWR.isSome then [s.spwr] else [])

/-- Modelled from the spec: whether the event loop (not in the sources at hand) hands
an occurrence of signal `n` to the watcher.  The spec calls a watcher "a binding
between a specific OS signal number and a callback", held through a handle that is
"registered with the loop at subsystem initialization" and released at teardown: the
watcher receives `n` when its handle is registered with the loop, it is bound to `n`
and it carries the callback `on_signal`.  A watcher that was never created, or that
has been closed, receives nothing. -/
def SignalWatcher.receives (w : SignalWatcher) (n : Nat) : Bool :=
  w.registered && w.signum = some n && w.cb = some .on_signal

/-- How many times one occurrence of signal `n` is dispatched to `on_signal`: once
per watcher that receives it. -/
def dispatch_count (P : Platform) (n : Nat) (s : State) : Nat :=
  ((watchers P s).filter fun w => w.receives n).length

/-- Modelled from the spec: the event loop (not in the sources at hand) delivering
one occurrence of signal `n`: every watcher that receives it has `on_signal` run, one
after the other, on the loop thread. -/
def loop_deliver (P : Platform) (n : Nat) (s : State) : Option State :=
  (watchers P s).foldlM
    (fun st w => if w.receives n then on_signal P (n : Int) st else some st) s

/-! ## Runs of the subsystem -/

/-- The operations of the subsystem: the exported functions and the dispatch entry
point that the loop calls. -/
inductive Op where
  | signal_init (mask_ok : Bool)
  | signal_start
  | signal_stop
  | signal_teardown
  | signal_reject_deadly
  | signal_accept_deadly
  | on_signal (signum : Int)
deriving DecidableEq, Repr

/-- Run one operation; `none` only when `on_signal` fails its assertion. -/
def step (P : Platform) (op : Op) (s : State) : Option State :=
  match op with
  | .signal_init mask_ok => some (signal_init P mask_ok s)
  | .signal_start => some (signal_start P s)
  | .signal_stop => some (signal_stop P s)
  | .signal_teardown => some (signal_teardown P s)
  | .signal_reject_deadly => some (signal_reject_deadly s)
  | .signal_accept_deadly => some (signal_accept_deadly s)
  | .on_signal signum => on_signal P signum s

/-- The states a run of the program can be in, as far as this file is concerned: it
starts with zeroed statics, the subsystem's operations run in any order, and in
between the rest of the program may write the globals this file does not own
(`v_dying`, `v:dying`, `IObuff`, `curbuf`) and make calls of its own.  The watchers
and `rejecting_deadly` are `static` and only change through the operations. -/
inductive Reachable (P : Platform) : State → Prop where
  | initial (curbuf : Buf) : Reachable P (State.initial curbuf)
  | step {s s1 : State} (op : Op) : Reachable P s → step P op s = some s1 → Reachable P s1
  | env {s : State} (v_dying VV_DYING : Int) (IObuff : String) (curbuf : Buf)
      (trace : List Call) : Reachable P s →
      Reachable P { s with
        v_dying := v_dying
        VV_DYING := VV_DYING
        IObuff := IObuff
        curbuf := curbuf
        trace := trace }

/-- A call of one of the two gate functions. -/
inductive GateCall where
  | reject
  | accept
deriving DecidableEq, Repr

/-- Run one gate call. -/
def GateCall.run (c : GateCall) (s : State) : State :=
  match c with
  | .reject => signal_reject_deadly s
  | .accept => signal_accept_deadly s

/-- Run a sequence of gate calls, first to last. -/
def run_gate (calls : List GateCall) (s : State) : State :=
  calls.foldl (fun st c => c.run st) s

/-- The watchers whose signal the platform does not define are not bound.  The
`#ifdef`s of `signal_start` skip exactly these, so nothing ever binds them (see
`reachable_skipped_unbound`). -/
def skipped_unbound (P : Platform) (s : State) : Prop :=
  (P.SIGPIPE = none → s.spipe.signum = none) ∧
  (P.SIGQUIT = none → s.squit.signum = none) ∧
  (P.SIGUSR1 = none → s.susr1.signum = none)

instance (P : Platform) (s : State) : Decidable (skipped_unbound P s) := by
  unfold skipped_unbound; infer_instance

/-- One `#ifdef`-guarded line of `signal_start`: the watcher is started where the
macro is defined and left alone where it is not.  Used to state what `signal_start`
does to each watcher. -/
def start_if_defined (label : Option Nat) (w : SignalWatcher) : SignalWatcher :=
  match label with
  | some n => signal_watcher_start w .on_signal n
  | none => w

/-- One `#ifdef`-guarded line of `signal_stop`. -/
def stop_if_defined (label : Option Nat) (w : SignalWatcher) : SignalWatcher :=
  match label with
  | some _ => signal_watcher_stop w
  | none => w

/-- Is the watcher bound the way `signal_start` binds it: to its signal and to
`on_signal`, where the platform defines the signal?  Nothing is asked of a watcher
whose signal the platform does not define. -/
def bound_as (label : Option Nat) (w : SignalWatcher) : Bool :=
  match label with
  | some n => w.signum = some n && w.cb = some .on_signal
  | none => true

/-- Every watcher whose signal the platform defines is bound to that signal and to
`on_signal`. -/
def all_started (P : Platform) (s : State) : Bool :=
  bound_as P.SIGPIPE s.spipe && bound_as (some P.SIGHUP) s.shup &&
  bound_as P.SIGQUIT s.squit && bound_as (some P.SIGTERM) s.sterm &&
  bound_as P.SIGPWR s.spwr && bound_as P.SIGUSR1 s.susr1

/-- Is the handle of the watcher registered with the loop, where the platform
defines the watcher's signal?  Nothing is asked of a watcher whose signal the platform
does not define. -/
def registered_as (label : Option Nat) (w : SignalWatcher) : Bool :=
  match label with
  | some _ => w.registered
  | none => true

/-- Every watcher whose signal the platform defines has a handle registered with the
loop: it has been created by `signal_init` and not closed by `signal_teardown`. -/
def all_registered (P : Platform) (s : State) : Bool :=
  registered_as P.SIGPIPE s.spipe && s.shup.registered &&
  registered_as P.SIGQUIT s.squit && s.sterm.registered &&
  registered_as P.SIGPWR s.spwr && registered_as P.SIGUSR1 s.susr1

/-- The state right after `signal_init` at program start on Windows. -/
def win32_after_init : State :=
  signal_init win32 true (State.initial sample_buf)

/-- The state right after `signal_init` at program start on Linux. -/
def linux_after_init : State :=
  signal_init linux true (State.initial sample_buf)

/-- The state on Windows after `signal_init` at program start and two further
`signal_start` calls. -/
def win32_started_twice : State :=
  signal_start win32 (signal_start win32 win32_after_init)

/-! ## Facts about the platform and the helpers -/

theorem snprintf_fits (buf : String) (size : Nat) (text : String)
    (h : text.length < size) : snprintf buf size text = text := by
  unfold snprintf
  have h0 : size ≠ 0 := by omega
  have h1 : text.data.length ≤ size - 1 := by
    have : text.data.length = text.length := rfl
    omega
  simp [h0, List.take_of_length_le h1]

theorem wf_term {P : Platform} (hP : P.WF) :
    is_case P.SIGPWR (P.SIGTERM : Int) = false ∧ is_case P.SIGPIPE (P.SIGTERM : Int) = false := by
  obtain ⟨w, nd, hup, term, pipe, quit, pwr, usr1, iosize⟩ := P
  rcases pipe with _ | pipe <;> rcases quit with _ | quit <;> rcases pwr with _ | pwr <;>
    rcases usr1 with _ | usr1 <;>
  simp [Platform.WF, Platform.monitored, is_case] at hP ⊢ <;> omega

theorem wf_hup {P : Platform} (hP : P.WF) :
    is_case P.SIGPWR (P.SIGHUP : Int) = false ∧ is_case P.SIGPIPE (P.SIGHUP : Int) = false ∧
    (P.SIGHUP : Int) ≠ (P.SIGTERM : Int) ∧ is_case P.SIGQUIT (P.SIGHUP : Int) = false := by
  obtain ⟨w, nd, hup, term, pipe, quit, pwr, usr1, iosize⟩ := P
  rcases pipe with _ | pipe <;> rcases quit with _ | quit <;> rcases pwr with _ | pwr <;>
    rcases usr1 with _ | usr1 <;>
  simp [Platform.WF, Platform.monitored, is_case] at hP ⊢ <;> omega

theorem wf_quit {P : Platform} (hP : P.WF) {k : Nat} (h : P.SIGQUIT = some k) :
    is_case P.SIGPWR (k : Int) = false ∧ is_case P.SIGPIPE (k : Int) = false ∧
    (k : Int) ≠ (P.SIGTERM : Int) ∧ (k : Int) ≠ (P.SIGHUP : Int) := by
  obtain ⟨w, nd, hup, term, pipe, quit, pwr, usr1, iosize⟩ := P
  subst h
  rcases pipe with _ | pipe <;> rcases pwr with _ | pwr <;> rcases usr1 with _ | usr1 <;>
  simp [Platform.WF, Platform.monitored, is_case] at hP ⊢ <;> omega

theorem wf_usr1 {P : Platform} (hP : P.WF) {k : Nat} (h : P.SIGUSR1 = some k) :
    is_case P.SIGPWR (k : Int) = false ∧ is_case P.SIGPIPE (k : Int) = false ∧
    (k : Int) ≠ (P.SIGTERM : Int) ∧ is_case P.SIGQUIT (k : Int) = false ∧
    (k : Int) ≠ (P.SIGHUP : Int) := by
  obtain ⟨w, nd, hup, term, pipe, quit, pwr, usr1, iosize⟩ := P
  subst h
  rcases pipe with _ | pipe <;> rcases pwr with _ | pwr <;> rcases quit with _ | quit <;>
  simp [Platform.WF, Platform.monitored, is_case] at hP ⊢ <;> omega

theorem is_case_self {label : Option Nat} {k : Nat} (h : label = some k) :
    is_case label (k : Int) = true := by
  subst h; simp [is_case]

theorem on_signal_sigterm {P : Platform} (hP : P.WF) (s : State) :
    on_signal P (P.SIGTERM : Int) s
      = some (if s.rejecting_deadly then s else deadly_signal P (P.SIGTERM : Int) s) := by
  have hneg : ¬ ((P.SIGTERM : Int) < 0) := by omega
  obtain ⟨h1, h2⟩ := wf_term hP
  cases hr : s.rejecting_deadly <;> simp [on_signal, hneg, h1, h2, hr]

theorem deadly_signal_calls (P : Platform) (n : Int) (s : State) :
    preserve_exit_calls (deadly_signal P n s).trace = preserve_exit_calls s.trace + 1 := by
  simp [deadly_signal, State.call, set_vim_var_nr, preserve_exit_calls, List.filter_append]

theorem run_gate_concat (calls : List GateCall) (c : GateCall) (s : State) :
    run_gate (calls ++ [c]) s = c.run (run_gate calls s) := by
  simp [run_gate, List.foldl_append]

theorem run_gate_trace (calls : List GateCall) (s : State) :
    (run_gate calls s).trace = s.trace := by
  induction calls using List.reverseRecOn with
  | nil => rfl
  | append_singleton l c ih =>
    rw [run_gate_concat]
    cases c <;> simpa [GateCall.run, signal_reject_deadly, signal_accept_deadly] using ih

theorem run_gate_rejecting (calls : List GateCall) (s : State) :
    (run_gate calls s).rejecting_deadly
      = match calls.getLast? with
        | none => s.rejecting_deadly
        | some .reject => true
        | some .accept => false := by
  rcases List.eq_nil_or_concat calls with rfl | ⟨l, c, rfl⟩
  · rfl
  · rw [List.concat_eq_append, run_gate_concat]
    cases c <;> simp [GateCall.run, signal_reject_deadly, signal_accept_deadly]

/-! ## Frame facts: what each operation leaves alone -/

theorem signal_start_frame (P : Platform) (s : State) :
    (signal_start P s).v_dying = s.v_dying ∧ (signal_start P s).VV_DYING = s.VV_DYING ∧
    (signal_start P s).rejecting_deadly = s.rejecting_deadly ∧
    (signal_start P s).IObuff = s.IObuff ∧ (signal_start P s).curbuf = s.curbuf ∧
    (signal_start P s).trace = s.trace := by
  obtain ⟨w, nd, hup, term, pipe, quit, pwr, usr1, iosize⟩ := P
  rcases pipe with _ | pipe <;> rcases quit with _ | quit <;> rcases pwr with _ | pwr <;>
    rcases usr1 with _ | usr1 <;> simp [signal_start]

theorem signal_stop_frame (P : Platform) (s : State) :
    (signal_stop P s).v_dying = s.v_dying ∧ (signal_stop P s).VV_DYING = s.VV_DYING ∧
    (signal_stop P s).rejecting_deadly = s.rejecting_deadly ∧
    (signal_stop P s).IObuff = s.IObuff ∧ (signal_stop P s).curbuf = s.curbuf ∧
    (signal_stop P s).trace = s.trace := by
  obtain ⟨w, nd, hup, term, pipe, quit, pwr, usr1, iosize⟩ := P
  rcases pipe with _ | pipe <;> rcases quit with _ | quit <;> rcases pwr with _ | pwr <;>
    rcases usr1 with _ | usr1 <;> simp [signal_stop]

theorem signal_init_frame (P : Platform) (mask_ok : Bool) (s : State) :
    (signal_init P mask_ok s).v_dying = s.v_dying ∧
    (signal_init P mask_ok s).VV_DYING = s.VV_DYING ∧
    (signal_init P mask_ok s).rejecting_deadly = s.rejecting_deadly ∧
    (signal_init P mask_ok s).IObuff = s.IObuff ∧
    (signal_init P mask_ok s).curbuf = s.curbuf := by
  unfold signal_init
  simp only [signal_start_frame]
  cases P.WIN32 <;> cases mask_ok <;> cases P.SIGPWR <;> cases P.SIGUSR1 <;>
    simp [State.call]

theorem signal_teardown_frame (P : Platform) (s : State) :
    (signal_teardown P s).v_dying = s.v_dying ∧
    (signal_teardown P s).VV_DYING = s.VV_DYING ∧
    (signal_teardown P s).rejecting_deadly = s.rejecting_deadly ∧
    (signal_teardown P s).IObuff = s.IObuff ∧
    (signal_teardown P s).curbuf = s.curbuf ∧
    (signal_teardown P s).trace = s.trace := by
  unfold signal_teardown
  cases P.SIGPWR <;> cases P.SIGUSR1 <;> simp [signal_stop_frame]

/-- What `on_signal` may do when it returns: the watchers and the gate are left
alone, and either the dying state is untouched, or the deadly branch ran with the
gate accepting. -/
theorem on_signal_cases (P : Platform) (n : Int) (s s1 : State)
    (h : on_signal P n s = some s1) :
    s1.spipe = s.spipe ∧ s1.shup = s.shup ∧ s1.squit = s.squit ∧ s1.sterm = s.sterm ∧
    s1.susr1 = s.susr1 ∧ s1.spwr = s.spwr ∧ s1.rejecting_deadly = s.rejecting_deadly ∧
    ((s1.v_dying = s.v_dying ∧ s1.VV_DYING = s.VV_DYING) ∨
     ((n = (P.SIGTERM : Int) ∨ is_case P.SIGQUIT n = true ∨ n = (P.SIGHUP : Int)) ∧
      s.rejecting_deadly = false ∧ s1 = deadly_signal P n s ∧
      s1.v_dying = 1 ∧ s1.VV_DYING = 1)) := by
  unfold on_signal at h
  split at h
  · exact absurd h (by simp)
  · split at h
    · obtain rfl := Option.some.inj h
      simp [State.call]
    · split at h
      · obtain rfl := Option.some.inj h
        simp
      · split at h
        · rename_i hd
          simp only [Bool.or_eq_true, decide_eq_true_eq] at hd
          cases hr : s.rejecting_deadly
          · simp only [hr, Bool.not_false, if_true] at h
            obtain rfl := Option.some.inj h
            simp [deadly_signal, State.call, set_vim_var_nr, hr]
            tauto
          · simp only [hr, Bool.not_true, Bool.false_eq_true, if_false] at h
            obtain rfl := Option.some.inj h
            simp [hr]
        · split at h
          · obtain rfl := Option.some.inj h
            simp [State.call]
          · obtain rfl := Option.some.inj h
            simp [State.call]

/-- The only way for `on_signal` not to return is the assertion: a negative signal
number in a build that checks assertions. -/
theorem on_signal_none (P : Platform) (n : Int) (s : State) :
    on_signal P n s = none ↔ n < 0 ∧ P.NDEBUG = false := by
  unfold on_signal
  constructor
  · intro h
    split at h
    · rename_i hc
      simpa using hc
    · split at h
      · exact absurd h (by simp)
      · split at h
        · exact absurd h (by simp)
        · split at h
          · split at h <;> exact absurd h (by simp)
          · split at h <;> exact absurd h (by simp)
  · rintro ⟨h1, h2⟩
    simp [h1, h2]

/-! ## Dispatch: the deadly branch -/

/-- C1: on a platform whose `IObuff` can hold the message, for each deadly signal
(SIGTERM, SIGQUIT where defined, SIGHUP) and every state whose gate is accepting,
`on_signal` returns with `v_dying = 1` and `v:dying = 1`, has logged the signal and
has called `preserve_exit` exactly once, as its last action; at that call `v_dying`
and `v:dying` are already 1 and `IObuff` is exactly
`Vim: Caught deadly signal '<NAME>'` followed by CR LF, `<NAME>` being the symbolic
name of the signal and never `Unknown`. Nothing else changes. -/
theorem on_signal_deadly_accepting (P : Platform) (hP : P.WF) (hsize : 38 ≤ P.IOSIZE)
    (s : State) (hrej : s.rejecting_deadly = false) (n : Nat) (name : String)
    (hn : (some n, name) ∈ deadly_labels P) :
    name ≠ "Unknown" ∧
    on_signal P (n : Int) s = some { s with
      v_dying := 1
      VV_DYING := 1
      IObuff := "Vim: Caught deadly signal \x27" ++ name ++ "\x27\r\n"
      trace := s.trace ++
        [Call.log .warn ("got signal " ++ fmt_d n ++ " (" ++ name ++ ")"),
         Call.preserve_exit 1 1 ("Vim: Caught deadly signal \x27" ++ name ++ "\x27\r\n")] } ∧
    preserve_exit_calls
        (s.trace ++
          [Call.log .warn ("got signal " ++ fmt_d n ++ " (" ++ name ++ ")"),
           Call.preserve_exit 1 1 ("Vim: Caught deadly signal \x27" ++ name ++ "\x27\r\n")])
      = preserve_exit_calls s.trace + 1 := by
  simp only [deadly_labels, List.mem_cons, Prod.mk.injEq, List.mem_singleton,
    List.not_mem_nil, or_false] at hn
  refine ⟨?_, ?_, ?_⟩
  · rcases hn with ⟨-, rfl⟩ | ⟨-, rfl⟩ | ⟨-, rfl⟩ <;> decide
  · have hneg : ¬ ((n : Int) < 0) := by omega
    rcases hn with ⟨h, rfl⟩ | ⟨h, rfl⟩ | ⟨h, rfl⟩
    · obtain rfl := Option.some.inj h
      obtain ⟨h1, h2⟩ := wf_term hP
      simp [on_signal, deadly_signal, signal_name, set_vim_var_nr, State.call, hneg, h1, h2,
        hrej]
      exact snprintf_fits _ _ _ (lt_of_lt_of_le (by decide) hsize)
    · obtain ⟨h1, h2, h3, -⟩ := wf_quit hP h.symm
      have h4 := is_case_self h.symm
      simp [on_signal, deadly_signal, signal_name, set_vim_var_nr, State.call, hneg, h1, h2,
        h3, h4, hrej]
      exact snprintf_fits _ _ _ (lt_of_lt_of_le (by decide) hsize)
    · obtain rfl := Option.some.inj h
      obtain ⟨h1, h2, h3, h4⟩ := wf_hup hP
      simp [on_signal, deadly_signal, signal_name, set_vim_var_nr, State.call, hneg, h1, h2,
        h3, h4, hrej]
      exact snprintf_fits _ _ _ (lt_of_lt_of_le (by decide) hsize)
  · simp [preserve_exit_calls, List.filter_append]

theorem on_signal_deadly_accepting_witness :
    linux.WF ∧ 38 ≤ linux.IOSIZE ∧ (State.initial sample_buf).rejecting_deadly = false ∧
    (some 15, "SIGTERM") ∈ deadly_labels linux ∧
    on_signal linux 15 (State.initial sample_buf) = some { State.initial sample_buf with
      v_dying := 1
      VV_DYING := 1
      IObuff := "Vim: Caught deadly signal \x27SIGTERM\x27\r\n"
      trace := [Call.log .warn "got signal 15 (SIGTERM)",
        Call.preserve_exit 1 1 "Vim: Caught deadly signal \x27SIGTERM\x27\r\n"] } :=
  ⟨by decide, by decide, rfl, by decide,
    (on_signal_deadly_accepting linux (by decide) (by decide) (State.initial sample_buf) rfl
      15 "SIGTERM" (by decide)).2.1⟩

/-- C2: for each deadly signal (SIGTERM, SIGQUIT where defined, SIGHUP) and every state
whose gate is rejecting, `on_signal` returns the state it was given: no call is
recorded (no `preserve_exit`, no log record), and `IObuff`, `v_dying`, `v:dying` and
`rejecting_deadly` are what they were. -/
theorem on_signal_deadly_rejecting (P : Platform) (hP : P.WF) (s : State)
    (hrej : s.rejecting_deadly = true) (n : Nat)
    (hn : n = P.SIGTERM ∨ P.SIGQUIT = some n ∨ n = P.SIGHUP) :
    on_signal P (n : Int) s = some s := by
  have hneg : ¬ ((n : Int) < 0) := by omega
  rcases hn with rfl | h | rfl
  · obtain ⟨h1, h2⟩ := wf_term hP
    simp [on_signal, hneg, h1, h2, hrej]
  · obtain ⟨h1, h2, h3, -⟩ := wf_quit hP h
    have h4 := is_case_self h
    simp [on_signal, hneg, h1, h2, h3, h4, hrej]
  · obtain ⟨h1, h2, h3, h4⟩ := wf_hup hP
    simp [on_signal, hneg, h1, h2, h3, h4, hrej]

theorem on_signal_deadly_rejecting_witness :
    linux.WF ∧ (signal_reject_deadly (State.initial sample_buf)).rejecting_deadly = true ∧
    linux.SIGQUIT = some 3 ∧
    on_signal linux 3 (signal_reject_deadly (State.initial sample_buf))
      = some (signal_reject_deadly (State.initial sample_buf)) :=
  ⟨by decide, rfl, rfl,
    on_signal_deadly_rejecting linux (by decide) (signal_reject_deadly (State.initial sample_buf))
      rfl 3 (Or.inr (Or.inl rfl))⟩

/-! ## The gate -/

/-- C3: the gate is last-write-wins.  From a state whose gate is accepting (as at
program start) and after any sequence of `signal_reject_deadly` /
`signal_accept_deadly` calls, `on_signal(SIGTERM)` runs `deadly_signal` (one more
`preserve_exit` call) when the sequence is empty or ends in `signal_accept_deadly`,
and otherwise returns the state untouched (no `preserve_exit` call).  In particular
one `signal_accept_deadly` after any number of `signal_reject_deadly` calls restores
the handling, from every state; and a SIGTERM while rejecting followed by
`signal_accept_deadly` and a second SIGTERM calls `preserve_exit` exactly once in
all, leaving the dying state true. -/
theorem gate_last_write_wins (P : Platform) (hP : P.WF) (s : State)
    (hs : s.rejecting_deadly = false) (calls : List GateCall) :
    (on_signal P (P.SIGTERM : Int) (run_gate calls s)
        = some (if calls = [] ∨ calls.getLast? = some .accept
            then deadly_signal P (P.SIGTERM : Int) (run_gate calls s)
            else run_gate calls s) ∧
      preserve_exit_calls
          (if calls = [] ∨ calls.getLast? = some .accept
            then deadly_signal P (P.SIGTERM : Int) (run_gate calls s)
            else run_gate calls s).trace
        = preserve_exit_calls s.trace
          + (if calls = [] ∨ calls.getLast? = some .accept then 1 else 0)) ∧
    (∀ (k : Nat) (s0 : State), ∃ s1,
      on_signal P (P.SIGTERM : Int) (run_gate (List.replicate k .reject ++ [.accept]) s0)
        = some s1 ∧
      preserve_exit_calls s1.trace = preserve_exit_calls s0.trace + 1) ∧
    (∀ s0 : State,
      on_signal P (P.SIGTERM : Int) (signal_reject_deadly s0) = some (signal_reject_deadly s0) ∧
      ∃ s2, on_signal P (P.SIGTERM : Int) (signal_accept_deadly (signal_reject_deadly s0))
          = some s2 ∧
        preserve_exit_calls s2.trace = preserve_exit_calls s0.trace + 1 ∧
        s2.v_dying = 1 ∧ s2.VV_DYING = 1) := by
  refine ⟨?_, ?_, ?_⟩
  · rw [on_signal_sigterm hP]
    have hr := run_gate_rejecting calls s
    rcases List.eq_nil_or_concat calls with rfl | ⟨l, c, rfl⟩
    · simp [run_gate, hs, deadly_signal_calls]
    · rw [List.concat_eq_append] at hr ⊢
      cases c
      · simp at hr
        simp [hr, run_gate_trace]
      · simp at hr
        simp [hr, deadly_signal_calls, run_gate_trace]
  · intro k s0
    refine ⟨_, on_signal_sigterm hP _, ?_⟩
    have hr := run_gate_rejecting (List.replicate k GateCall.reject ++ [GateCall.accept]) s0
    simp at hr
    simp [hr, deadly_signal_calls, run_gate_trace]
  · intro s0
    refine ⟨?_, _, on_signal_sigterm hP _, ?_⟩
    · rw [on_signal_sigterm hP]; simp [signal_reject_deadly]
    · simp [signal_accept_deadly, signal_reject_deadly, deadly_signal_calls]
      simp [deadly_signal, State.call, set_vim_var_nr]

theorem gate_last_write_wins_witness :
    linux.WF ∧ (State.initial sample_buf).rejecting_deadly = false ∧
    on_signal linux 15 (run_gate [.reject, .reject, .accept] (State.initial sample_buf))
      = some (deadly_signal linux 15
          (run_gate [.reject, .reject, .accept] (State.initial sample_buf))) :=
  ⟨by decide, rfl,
    (gate_last_write_wins linux (by decide) (State.initial sample_buf) rfl
      [.reject, .reject, .accept]).1.1⟩

/-! ## Dispatch: the other branches -/

/-- C4: for every signal number `n >= 0` that is none of the signals the platform
monitors, and every state (whatever the gate), `on_signal` appends exactly one record
to the trace, the error log `invalid signal: n`, and changes nothing else: no flush,
no autocommand, no `preserve_exit`, and `v_dying`, `v:dying`, `IObuff` and
`rejecting_deadly` keep their values. -/
theorem on_signal_unknown (P : Platform) (s : State) (n : Int) (h0 : 0 ≤ n)
    (hn : ∀ k ∈ P.monitored, n ≠ (k : Int)) :
    on_signal P n s
      = some { s with trace := s.trace ++ [Call.log .error ("invalid signal: " ++ fmt_d n)] } := by
  have hneg : ¬ (n < 0) := by omega
  have hterm : n ≠ (P.SIGTERM : Int) := hn _ (by simp [Platform.monitored])
  have hhup : n ≠ (P.SIGHUP : Int) := hn _ (by simp [Platform.monitored])
  have hopt : ∀ label : Option Nat, (∀ k, label = some k → k ∈ P.monitored) →
      is_case label n = false := by
    intro label hl
    cases label with
    | none => rfl
    | some k => simpa [is_case] using hn k (hl k rfl)
  have hpwr := hopt P.SIGPWR (fun k hk => by simp [Platform.monitored, hk])
  have hpipe := hopt P.SIGPIPE (fun k hk => by simp [Platform.monitored, hk])
  have hquit := hopt P.SIGQUIT (fun k hk => by simp [Platform.monitored, hk])
  have husr := hopt P.SIGUSR1 (fun k hk => by simp [Platform.monitored, hk])
  simp [on_signal, State.call, hneg, hterm, hhup, hpwr, hpipe, hquit, husr]

theorem on_signal_unknown_witness :
    (0 : Int) ≤ 2 ∧ (∀ k ∈ linux.monitored, (2 : Int) ≠ (k : Int)) ∧
    on_signal linux 2 (State.initial sample_buf)
      = some { State.initial sample_buf with
          trace := (State.initial sample_buf).trace
            ++ [Call.log .error ("invalid signal: " ++ fmt_d 2)] } :=
  ⟨by decide, by decide,
    on_signal_unknown linux (State.initial sample_buf) 2 (by decide) (by decide)⟩

/-- C5: where the platform defines SIGPWR, for every state (whatever the gate),
`on_signal(SIGPWR)` appends exactly one record to the trace, the call
`ml_sync_all(false, false, true)`, and changes nothing else: `preserve_exit` is not
called and `v_dying` and `v:dying` keep their values. -/
theorem on_signal_sigpwr (P : Platform) (s : State) (n : Nat) (h : P.SIGPWR = some n) :
    on_signal P (n : Int) s
      = some { s with trace := s.trace ++ [Call.ml_sync_all false false true] } := by
  have hneg : ¬ ((n : Int) < 0) := by omega
  simp [on_signal, State.call, hneg, is_case_self h]

theorem on_signal_sigpwr_witness :
    linux.SIGPWR = some 30 ∧
    on_signal linux 30 (signal_reject_deadly (State.initial sample_buf))
      = some { signal_reject_deadly (State.initial sample_buf) with
          trace := [Call.ml_sync_all false false true] } :=
  ⟨rfl, on_signal_sigpwr linux (signal_reject_deadly (State.initial sample_buf)) 30 rfl⟩

/-- C6: where the platform defines SIGUSR1, for every state (whatever the gate),
`on_signal(SIGUSR1)` appends exactly one record to the trace, the call
`apply_autocmds(EVENT_SIGNAL, "SIGUSR1", curbuf->b_fname, true, curbuf)`, and changes
nothing else: no `preserve_exit`, no flush, and the dying state and the gate keep
their values. -/
theorem on_signal_sigusr1 (P : Platform) (hP : P.WF) (s : State) (n : Nat)
    (h : P.SIGUSR1 = some n) :
    on_signal P (n : Int) s
      = some { s with trace := s.trace ++
          [Call.apply_autocmds .EVENT_SIGNAL "SIGUSR1" s.curbuf.b_fname true s.curbuf] } := by
  have hneg : ¬ ((n : Int) < 0) := by omega
  obtain ⟨h1, h2, h3, h4, h5⟩ := wf_usr1 hP h
  simp [on_signal, State.call, hneg, h1, h2, h3, h4, h5, is_case_self h]

theorem on_signal_sigusr1_witness :
    linux.WF ∧ linux.SIGUSR1 = some 10 ∧
    on_signal linux 10 (State.initial sample_buf)
      = some { State.initial sample_buf with
          trace := [Call.apply_autocmds .EVENT_SIGNAL "SIGUSR1" (some "notes.txt") true
            sample_buf] } :=
  ⟨by decide, rfl, on_signal_sigusr1 linux (by decide) (State.initial sample_buf) 10 rfl⟩

/-! ## The watcher set -/

theorem signal_start_skipped (P : Platform) (s : State) (h : skipped_unbound P s) :
    skipped_unbound P (signal_start P s) := by
  obtain ⟨w, nd, hup, term, pipe, quit, pwr, usr1, iosize⟩ := P
  rcases pipe with _ | pipe <;> rcases quit with _ | quit <;> rcases pwr with _ | pwr <;>
    rcases usr1 with _ | usr1 <;>
  simp_all [skipped_unbound, signal_start, signal_watcher_start]

theorem signal_stop_skipped (P : Platform) (s : State) (h : skipped_unbound P s) :
    skipped_unbound P (signal_stop P s) := by
  obtain ⟨w, nd, hup, term, pipe, quit, pwr, usr1, iosize⟩ := P
  rcases pipe with _ | pipe <;> rcases quit with _ | quit <;> rcases pwr with _ | pwr <;>
    rcases usr1 with _ | usr1 <;>
  simp_all [skipped_unbound, signal_stop, signal_watcher_stop]

theorem signal_init_skipped (P : Platform) (mask_ok : Bool) (s : State)
    (h : skipped_unbound P s) : skipped_unbound P (signal_init P mask_ok s) := by
  unfold signal_init
  apply signal_start_skipped
  obtain ⟨w, nd, hup, term, pipe, quit, pwr, usr1, iosize⟩ := P
  rcases pipe with _ | pipe <;> rcases quit with _ | quit <;> rcases pwr with _ | pwr <;>
    rcases usr1 with _ | usr1 <;> cases w <;> cases mask_ok <;>
  simp_all [skipped_unbound, signal_watcher_init, State.call]

theorem signal_teardown_skipped (P : Platform) (s : State) (h : skipped_unbound P s) :
    skipped_unbound P (signal_teardown P s) := by
  have h1 := signal_stop_skipped P s h
  unfold signal_teardown
  obtain ⟨w, nd, hup, term, pipe, quit, pwr, usr1, iosize⟩ := P
  rcases pipe with _ | pipe <;> rcases quit with _ | quit <;> rcases pwr with _ | pwr <;>
    rcases usr1 with _ | usr1 <;>
  simp_all [skipped_unbound, signal_watcher_close]

/-- In every state a run can reach, the watchers of undefined signals are unbound. -/
theorem reachable_skipped_unbound {P : Platform} {s : State} (h : Reachable P s) :
    skipped_unbound P s := by
  induction h with
  | initial curbuf => simp [skipped_unbound, State.initial, SignalWatcher.zero]
  | @step s0 s2 op _ hstep ih =>
    cases op with
    | signal_init mask_ok =>
      obtain rfl := Option.some.inj hstep; exact signal_init_skipped P mask_ok _ ih
    | signal_start => obtain rfl := Option.some.inj hstep; exact signal_start_skipped P _ ih
    | signal_stop => obtain rfl := Option.some.inj hstep; exact signal_stop_skipped P _ ih
    | signal_teardown =>
      obtain rfl := Option.some.inj hstep; exact signal_teardown_skipped P _ ih
    | signal_reject_deadly => obtain rfl := Option.some.inj hstep; exact ih
    | signal_accept_deadly => obtain rfl := Option.some.inj hstep; exact ih
    | on_signal n =>
      obtain ⟨e1, -, e3, -, e5, -⟩ := on_signal_cases P n s0 s2 hstep
      simpa [skipped_unbound, e1, e3, e5] using ih
  | env v_dying VV_DYING IObuff curbuf trace _ ih => exact ih

theorem foldlM_skip (P : Platform) (n : Nat) (l : List SignalWatcher) (s : State)
    (h : ∀ w ∈ l, w.receives n = false) :
    l.foldlM (fun st w => if w.receives n then on_signal P (n : Int) st else some st) s
      = some s := by
  induction l with
  | nil => rfl
  | cons w l ih =>
    have hw := h w (List.mem_cons_self _ _)
    simp only [List.foldlM_cons, hw]
    simpa using ih (fun v hv => h v (List.mem_cons_of_mem _ hv))

theorem no_dispatch_of_unbound (P : Platform) (n : Nat) (s : State)
    (h : ∀ w ∈ watchers P s, w.signum = none) :
    dispatch_count P n s = 0 ∧ loop_deliver P n s = some s := by
  have hr : ∀ w ∈ watchers P s, w.receives n = false := by
    intro w hw
    simp [SignalWatcher.receives, h w hw]
  refine ⟨?_, foldlM_skip P n _ s hr⟩
  simp only [dispatch_count, List.length_eq_zero, List.filter_eq_nil_iff]
  intro w hw
  simp [hr w hw]

theorem foldlM_once (P : Platform) (n : Nat) (l : List SignalWatcher) (s : State)
    (h : (l.filter fun w => w.receives n).length = 1) :
    l.foldlM (fun st w => if w.receives n then on_signal P (n : Int) st else some st) s
      = on_signal P (n : Int) s := by
  induction l with
  | nil => simp at h
  | cons w l ih =>
    cases hw : w.receives n
    · simp only [List.filter_cons, hw] at h
      simp only [List.foldlM_cons, hw]
      simpa using ih h
    · simp only [List.filter_cons, hw, if_true, List.length_cons, add_left_eq_self,
        List.length_eq_zero, List.filter_eq_nil_iff] at h
      have hl : ∀ v ∈ l, v.receives n = false := by
        intro v hv
        simpa using h v hv
      simp only [List.foldlM_cons, hw, if_true]
      cases hr : on_signal P (n : Int) s with
      | none => rfl
      | some s1 => simpa using foldlM_skip P n l s1 hl

theorem signal_start_watchers (P : Platform) (s : State) :
    (signal_start P s).spipe = start_if_defined P.SIGPIPE s.spipe ∧
    (signal_start P s).shup = signal_watcher_start s.shup .on_signal P.SIGHUP ∧
    (signal_start P s).squit = start_if_defined P.SIGQUIT s.squit ∧
    (signal_start P s).sterm = signal_watcher_start s.sterm .on_signal P.SIGTERM ∧
    (signal_start P s).susr1 = start_if_defined P.SIGUSR1 s.susr1 ∧
    (signal_start P s).spwr = start_if_defined P.SIGPWR s.spwr := by
  obtain ⟨w, nd, hup, term, pipe, quit, pwr, usr1, iosize⟩ := P
  rcases pipe with _ | pipe <;> rcases quit with _ | quit <;> rcases pwr with _ | pwr <;>
    rcases usr1 with _ | usr1 <;> simp [signal_start, start_if_defined]

theorem signal_stop_watchers (P : Platform) (s : State) :
    (signal_stop P s).spipe = stop_if_defined P.SIGPIPE s.spipe ∧
    (signal_stop P s).shup = signal_watcher_stop s.shup ∧
    (signal_stop P s).squit = stop_if_defined P.SIGQUIT s.squit ∧
    (signal_stop P s).sterm = signal_watcher_stop s.sterm ∧
    (signal_stop P s).susr1 = stop_if_defined P.SIGUSR1 s.susr1 ∧
    (signal_stop P s).spwr = stop_if_defined P.SIGPWR s.spwr := by
  obtain ⟨w, nd, hup, term, pipe, quit, pwr, usr1, iosize⟩ := P
  rcases pipe with _ | pipe <;> rcases quit with _ | quit <;> rcases pwr with _ | pwr <;>
    rcases usr1 with _ | usr1 <;> simp [signal_stop, stop_if_defined]

theorem receives_start_if_defined (label : Option Nat) (w : SignalWatcher) (n : Nat)
    (h : label = none → w.signum = none) (hreg : registered_as label w = true) :
    (if (start_if_defined label w).receives n = true then 1 else 0) = label.toList.count n := by
  cases label with
  | none => simp [start_if_defined, SignalWatcher.receives, h rfl]
  | some k =>
    have hw : w.registered = true := hreg
    simp [start_if_defined, signal_watcher_start, SignalWatcher.receives,
      List.count_singleton, hw]

theorem receives_started (w : SignalWatcher) (k n : Nat) (hw : w.registered = true) :
    (if (signal_watcher_start w .on_signal k).receives n = true then 1 else 0)
      = [k].count n := by
  simp [signal_watcher_start, SignalWatcher.receives, List.count_singleton, hw]

theorem registered_as_of_registered (label : Option Nat) (w : SignalWatcher)
    (h : w.registered = true) : registered_as label w = true := by
  cases label <;> simp [registered_as, h]

theorem registered_as_of_defined (label : Option Nat) (w : SignalWatcher)
    (h : label.isSome → w.registered = true) : registered_as label w = true := by
  cases label with
  | none => rfl
  | some k => exact h rfl

theorem all_registered_iff (P : Platform) (s : State) :
    all_registered P s = true ↔
      registered_as P.SIGPIPE s.spipe = true ∧ s.shup.registered = true ∧
      registered_as P.SIGQUIT s.squit = true ∧ s.sterm.registered = true ∧
      registered_as P.SIGPWR s.spwr = true ∧ registered_as P.SIGUSR1 s.susr1 = true := by
  simp [all_registered, and_assoc]

theorem started_dispatch_count (P : Platform) (hP : P.WF) (s : State)
    (hs : skipped_unbound P s) (hreg : all_registered P s = true) (n : Nat)
    (hn : n ∈ P.monitored) :
    dispatch_count P n (signal_start P s) = 1 := by
  obtain ⟨e1, e2, e3, e4, e5, e6⟩ := signal_start_watchers P s
  obtain ⟨k1, k2, k3⟩ := hs
  obtain ⟨g1, g2, g3, g4, g5, g6⟩ := (all_registered_iff P s).mp hreg
  have hc : dispatch_count P n (signal_start P s) = P.monitored.count n := by
    simp only [dispatch_count, watchers, ← List.countP_eq_length_filter, List.countP_append,
      List.countP_cons, List.countP_nil, e1, e2, e3, e4, e5, e6,
      receives_start_if_defined _ _ _ k1 g1, receives_start_if_defined _ _ _ k2 g3,
      receives_start_if_defined _ _ _ k3 g6, receives_started _ _ _ g2,
      receives_started _ _ _ g4, Platform.monitored, List.count_append]
    cases hpwr : P.SIGPWR with
    | none => simp; omega
    | some k =>
      have g5k : s.spwr.registered = true := by simpa [registered_as, hpwr] using g5
      simp [start_if_defined, signal_watcher_start, SignalWatcher.receives,
        List.count_singleton, List.countP_cons, g5k]
      omega
  rw [hc]
  exact List.count_eq_one_of_mem hP hn

theorem started_dispatch_once (P : Platform) (hP : P.WF) (s : State)
    (hs : skipped_unbound P s) (hreg : all_registered P s = true) (n : Nat)
    (hn : n ∈ P.monitored) :
    dispatch_count P n (signal_start P s) = 1 ∧
    loop_deliver P n (signal_start P s) = on_signal P (n : Int) (signal_start P s) :=
  ⟨started_dispatch_count P hP s hs hreg n hn,
    foldlM_once P n _ _ (started_dispatch_count P hP s hs hreg n hn)⟩

theorem signal_stop_all_registered (P : Platform) (s : State) :
    all_registered P (signal_stop P s) = all_registered P s := by
  obtain ⟨w, nd, hup, term, pipe, quit, pwr, usr1, iosize⟩ := P
  rcases pipe with _ | pipe <;> rcases quit with _ | quit <;> rcases pwr with _ | pwr <;>
    rcases usr1 with _ | usr1 <;>
  simp [all_registered, registered_as, signal_stop, signal_watcher_stop]

theorem signal_start_all_registered (P : Platform) (s : State) :
    all_registered P (signal_start P s) = all_registered P s := by
  obtain ⟨w, nd, hup, term, pipe, quit, pwr, usr1, iosize⟩ := P
  rcases pipe with _ | pipe <;> rcases quit with _ | quit <;> rcases pwr with _ | pwr <;>
    rcases usr1 with _ | usr1 <;>
  simp [all_registered, registered_as, signal_start, signal_watcher_start]

theorem started_signums (P : Platform) (s : State) (hs : skipped_unbound P s) :
    (watchers P (signal_start P s)).filterMap (fun w => w.signum)
      = P.SIGPIPE.toList ++ [P.SIGHUP] ++ P.SIGQUIT.toList ++ [P.SIGTERM]
          ++ P.SIGUSR1.toList ++ P.SIGPWR.toList := by
  obtain ⟨e1, e2, e3, e4, e5, e6⟩ := signal_start_watchers P s
  obtain ⟨k1, k2, k3⟩ := hs
  simp only [watchers, e1, e2, e3, e4, e5, e6]
  cases h1 : P.SIGPIPE <;> cases h2 : P.SIGQUIT <;> cases h3 : P.SIGUSR1 <;>
    cases h4 : P.SIGPWR <;>
  simp_all [start_if_defined, signal_watcher_start]

theorem started_signums_nodup (P : Platform) (hP : P.WF) (s : State)
    (hs : skipped_unbound P s) :
    ((watchers P (signal_start P s)).filterMap (fun w => w.signum)).Nodup := by
  rw [started_signums P s hs]
  refine (List.Perm.nodup_iff ?_).mpr hP
  rw [List.perm_iff_count]
  intro a
  simp only [Platform.monitored, List.count_append]
  omega

theorem signal_start_twice (P : Platform) (s : State) :
    signal_start P (signal_start P s) = signal_start P s := by
  obtain ⟨w, nd, hup, term, pipe, quit, pwr, usr1, iosize⟩ := P
  rcases pipe with _ | pipe <;> rcases quit with _ | quit <;> rcases pwr with _ | pwr <;>
    rcases usr1 with _ | usr1 <;> simp [signal_start, signal_watcher_start]

theorem signal_start_all_started (P : Platform) (s : State) :
    all_started P (signal_start P s) = true := by
  obtain ⟨e1, e2, e3, e4, e5, e6⟩ := signal_start_watchers P s
  simp only [all_started, e1, e2, e3, e4, e5, e6]
  cases P.SIGPIPE <;> cases P.SIGQUIT <;> cases P.SIGUSR1 <;> cases P.SIGPWR <;>
    simp [start_if_defined, signal_watcher_start, bound_as]

theorem signal_start_registered (P : Platform) (s : State) :
    (watchers P (signal_start P s)).map (fun w => w.registered)
      = (watchers P s).map (fun w => w.registered) := by
  obtain ⟨e1, e2, e3, e4, e5, e6⟩ := signal_start_watchers P s
  simp only [watchers, e1, e2, e3, e4, e5, e6]
  cases P.SIGPIPE <;> cases P.SIGQUIT <;> cases P.SIGUSR1 <;> cases P.SIGPWR <;>
    simp [start_if_defined, signal_watcher_start]

/-- Watchers that were never created receive nothing: `signal_start` at program
start, without `signal_init`, binds watchers whose handles are not registered with
the loop, and an occurrence of SIGTERM is dispatched zero times. -/
theorem never_created_receives_nothing :
    dispatch_count win32 15 (signal_start win32 (State.initial sample_buf)) = 0 ∧
    loop_deliver win32 15 (signal_start win32 (State.initial sample_buf))
      = some (signal_start win32 (State.initial sample_buf)) := by
  decide

/-- C9, the claim as stated fails on Windows: `spipe` is declared and initialised
unconditionally, but `signal_start` binds it only under `#ifdef SIGPIPE`.  After
`signal_init` and two more `signal_start` calls `spipe` is a registered watcher of
the set that is bound to no signal, so not every watcher is bound. -/
theorem signal_start_leaves_spipe_unbound :
    win32_started_twice.spipe ∈ watchers win32 win32_started_twice ∧
    win32_started_twice.spipe.registered = true ∧
    win32_started_twice.spipe.signum = none ∧
    ¬ (∀ w ∈ watchers win32 win32_started_twice,
        ∃ n, w.signum = some n ∧ w.cb = some .on_signal) := by
  refine ⟨by decide, by decide, by decide, ?_⟩
  intro h
  obtain ⟨n, hn, -⟩ := h win32_started_twice.spipe (by decide)
  have hnone : win32_started_twice.spipe.signum = none := by decide
  rw [hnone] at hn
  exact Option.noConfusion hn

/-- C9 as amended: `signal_start` is idempotent: for every state, calling it twice
in a row yields the same state as calling it once.  In that state every watcher
whose signal the platform defines is bound to exactly that signal and to
`on_signal`, a watcher whose signal the platform does not define is left as it was,
and the registration of every watcher (hence their number) is unchanged.  When the
watchers of undefined signals are unbound, as in every reachable state, no two
watchers are bound to the same signal number; when moreover the watchers of the
defined signals are registered with the loop (created by `signal_init` and not
closed), a single occurrence of a monitored signal is dispatched to `on_signal`
exactly once. -/
theorem signal_start_idempotent (P : Platform) (hP : P.WF) (s : State) :
    signal_start P (signal_start P s) = signal_start P s ∧
    all_started P (signal_start P s) = true ∧
    (P.SIGPIPE = none → (signal_start P s).spipe = s.spipe) ∧
    (P.SIGQUIT = none → (signal_start P s).squit = s.squit) ∧
    (P.SIGUSR1 = none → (signal_start P s).susr1 = s.susr1) ∧
    (watchers P (signal_start P s)).map (fun w => w.registered)
      = (watchers P s).map (fun w => w.registered) ∧
    (skipped_unbound P s →
      ((watchers P (signal_start P s)).filterMap (fun w => w.signum)).Nodup ∧
      (all_registered P s = true → ∀ n ∈ P.monitored,
        dispatch_count P n (signal_start P s) = 1 ∧
        dispatch_count P n (signal_start P (signal_start P s)) = 1 ∧
        loop_deliver P n (signal_start P s) = on_signal P (n : Int) (signal_start P s))) := by
  obtain ⟨e1, -, e3, -, e5, -⟩ := signal_start_watchers P s
  refine ⟨signal_start_twice P s, signal_start_all_started P s, ?_, ?_, ?_,
    signal_start_registered P s, ?_⟩
  · intro h; rw [e1, h]; rfl
  · intro h; rw [e3, h]; rfl
  · intro h; rw [e5, h]; rfl
  · intro hs
    refine ⟨started_signums_nodup P hP s hs, fun hreg n hn => ?_⟩
    obtain ⟨h1, h2⟩ := started_dispatch_once P hP s hs hreg n hn
    refine ⟨h1, ?_, h2⟩
    rw [signal_start_twice]
    exact h1

theorem signal_start_idempotent_witness :
    win32.WF ∧ skipped_unbound win32 win32_after_init ∧
    all_registered win32 win32_after_init = true ∧ 15 ∈ win32.monitored ∧
    signal_start win32 (signal_start win32 win32_after_init)
      = signal_start win32 win32_after_init ∧
    dispatch_count win32 15 (signal_start win32 win32_after_init) = 1 ∧
    dispatch_count win32 15 win32_started_twice = 1 := by
  have hs : skipped_unbound win32 win32_after_init := by decide
  have hreg : all_registered win32 win32_after_init = true := by decide
  have hn : 15 ∈ win32.monitored := by decide
  have h := signal_start_idempotent win32 (by decide) win32_after_init
  exact ⟨by decide, hs, hreg, hn, h.1, ((h.2.2.2.2.2.2 hs).2 hreg 15 hn).1,
    ((h.2.2.2.2.2.2 hs).2 hreg 15 hn).2.1⟩

theorem signal_init_as_start (P : Platform) (mask_ok : Bool) (s : State) :
    ∃ s0, signal_init P mask_ok s = signal_start P s0 ∧
      (skipped_unbound P s → skipped_unbound P s0) ∧
      s0.spipe.registered = true ∧ s0.shup.registered = true ∧ s0.squit.registered = true ∧
      s0.sterm.registered = true ∧ (P.SIGPWR.isSome → s0.spwr.registered = true) ∧
      (P.SIGUSR1.isSome → s0.susr1.registered = true) := by
  unfold signal_init
  refine ⟨_, rfl, ?_⟩
  obtain ⟨w, nd, hup, term, pipe, quit, pwr, usr1, iosize⟩ := P
  rcases pipe with _ | pipe <;> rcases quit with _ | quit <;> rcases pwr with _ | pwr <;>
    rcases usr1 with _ | usr1 <;> cases w <;> cases mask_ok <;>
  simp_all [skipped_unbound, signal_watcher_init, State.call]

theorem signal_start_keeps_registered (P : Platform) (s : State) :
    (signal_start P s).spipe.registered = s.spipe.registered ∧
    (signal_start P s).shup.registered = s.shup.registered ∧
    (signal_start P s).squit.registered = s.squit.registered ∧
    (signal_start P s).sterm.registered = s.sterm.registered ∧
    (signal_start P s).spwr.registered = s.spwr.registered ∧
    (signal_start P s).susr1.registered = s.susr1.registered := by
  obtain ⟨e1, e2, e3, e4, e5, e6⟩ := signal_start_watchers P s
  rw [e1, e2, e3, e4, e5, e6]
  cases P.SIGPIPE <;> cases P.SIGQUIT <;> cases P.SIGUSR1 <;> cases P.SIGPWR <;>
    simp [start_if_defined, signal_watcher_start]

/-- C7, the claim as stated fails: `signal_init` ends with a call of `signal_start`
(line 58).  On Linux, right after `signal_init` at program start, `sterm` is bound to
signal 15 and `on_signal`, so not every watcher is unbound, and a delivered SIGTERM
is dispatched to `on_signal`, which goes on to call `preserve_exit`. -/
theorem signal_init_already_started :
    linux_after_init.sterm.signum = some 15 ∧
    linux_after_init.sterm.cb = some .on_signal ∧
    ¬ (∀ w ∈ watchers linux linux_after_init, w.signum = none) ∧
    dispatch_count linux 15 linux_after_init = 1 ∧
    loop_deliver linux 15 linux_after_init = on_signal linux 15 linux_after_init ∧
    ∃ s1, loop_deliver linux 15 linux_after_init = some s1 ∧
      preserve_exit_calls s1.trace = 1 := by
  refine ⟨by decide, by decide, ?_, by decide, by decide, ?_⟩
  · intro h
    have h1 := h linux_after_init.sterm (by decide)
    have h2 : linux_after_init.sterm.signum = some 15 := by decide
    rw [h2] at h1
    exact Option.noConfusion h1
  · exact ⟨deadly_signal linux 15 linux_after_init, by decide, by decide⟩

/-- C7 as amended: `signal_init` creates and registers the watchers and then calls
`signal_start` itself.  In the state right after `signal_init`, before any explicit
`signal_start` call, the watchers are registered and every watcher whose signal the
platform defines is already bound to that signal and to `on_signal` (a further
`signal_start` changes nothing); when the watchers of undefined signals were unbound
before, as at program start, an occurrence of a monitored signal is dispatched to
`on_signal` exactly once. -/
theorem signal_init_starts (P : Platform) (hP : P.WF) (mask_ok : Bool) (s : State) :
    all_started P (signal_init P mask_ok s) = true ∧
    signal_start P (signal_init P mask_ok s) = signal_init P mask_ok s ∧
    (signal_init P mask_ok s).spipe.registered = true ∧
    (signal_init P mask_ok s).shup.registered = true ∧
    (signal_init P mask_ok s).squit.registered = true ∧
    (signal_init P mask_ok s).sterm.registered = true ∧
    (P.SIGPWR.isSome → (signal_init P mask_ok s).spwr.registered = true) ∧
    (P.SIGUSR1.isSome → (signal_init P mask_ok s).susr1.registered = true) ∧
    (skipped_unbound P s → ∀ n ∈ P.monitored,
      dispatch_count P n (signal_init P mask_ok s) = 1 ∧
      loop_deliver P n (signal_init P mask_ok s)
        = on_signal P (n : Int) (signal_init P mask_ok s)) := by
  obtain ⟨s0, e, hsk, r1, r2, r3, r4, r5, r6⟩ := signal_init_as_start P mask_ok s
  obtain ⟨q1, q2, q3, q4, q5, q6⟩ := signal_start_keeps_registered P s0
  refine ⟨?_, ?_, ?_, ?_, ?_, ?_, ?_, ?_, ?_⟩
  · rw [e]; exact signal_start_all_started P s0
  · rw [e]; exact signal_start_twice P s0
  · rw [e, q1]; exact r1
  · rw [e, q2]; exact r2
  · rw [e, q3]; exact r3
  · rw [e, q4]; exact r4
  · intro h; rw [e, q5]; exact r5 h
  · intro h; rw [e, q6]; exact r6 h
  · intro hs n hn
    have hreg : all_registered P s0 = true := by
      rw [all_registered_iff]
      exact ⟨registered_as_of_registered _ _ r1, r2, registered_as_of_registered _ _ r3, r4,
        registered_as_of_defined _ _ r5, registered_as_of_defined _ _ r6⟩
    rw [e]
    exact started_dispatch_once P hP s0 (hsk hs) hreg n hn

theorem signal_init_starts_witness :
    linux.WF ∧ skipped_unbound linux (State.initial sample_buf) ∧ 15 ∈ linux.monitored ∧
    all_started linux (signal_init linux true (State.initial sample_buf)) = true ∧
    dispatch_count linux 15 (signal_init linux true (State.initial sample_buf)) = 1 := by
  have hs : skipped_unbound linux (State.initial sample_buf) := by decide
  have hn : 15 ∈ linux.monitored := by decide
  have h := signal_init_starts linux (by decide) true (State.initial sample_buf)
  exact ⟨by decide, hs, hn, h.1, (h.2.2.2.2.2.2.2.2 hs 15 hn).1⟩

theorem signal_stop_all_unbound (P : Platform) (s : State) (hs : skipped_unbound P s) :
    ∀ w ∈ watchers P (signal_stop P s), w.signum = none := by
  obtain ⟨e1, e2, e3, e4, e5, e6⟩ := signal_stop_watchers P s
  obtain ⟨k1, k2, k3⟩ := hs
  simp only [watchers, e1, e2, e3, e4, e5, e6]
  cases h1 : P.SIGPIPE <;> cases h2 : P.SIGQUIT <;> cases h3 : P.SIGUSR1 <;>
    cases h4 : P.SIGPWR <;>
  simp_all [stop_if_defined, signal_watcher_stop]

theorem signal_stop_registered (P : Platform) (s : State) :
    (watchers P (signal_stop P s)).map (fun w => w.registered)
      = (watchers P s).map (fun w => w.registered) := by
  obtain ⟨e1, e2, e3, e4, e5, e6⟩ := signal_stop_watchers P s
  simp only [watchers, e1, e2, e3, e4, e5, e6]
  cases P.SIGPIPE <;> cases P.SIGQUIT <;> cases P.SIGUSR1 <;> cases P.SIGPWR <;>
    simp [stop_if_defined, signal_watcher_stop]

theorem stop_if_defined_of_started (label : Option Nat) (w v : SignalWatcher)
    (h : start_if_defined label w ≠ w) : (stop_if_defined label v).signum = none := by
  cases label with
  | none => exact absurd rfl h
  | some k => rfl

/-- C8: `signal_stop` undoes the binding of every watcher that `signal_start` binds:
a watcher that some `signal_start` call changes is unbound by every `signal_stop`
call.  So in every reachable state, after `signal_stop` no watcher is bound, an
occurrence of any signal is dispatched to `on_signal` zero times (delivery leaves the
state as it is), and the registration of every watcher is what it was: the handles
stay open.  A later `signal_start` makes every monitored signal reach `on_signal`
again, exactly once, as long as the watchers are still registered with the loop. -/
theorem signal_stop_unbinds (P : Platform) (s : State) (hs : Reachable P s) :
    (∀ f ∈ [State.spipe, State.shup, State.squit, State.sterm, State.susr1, State.spwr],
      ∀ t u : State, f (signal_start P t) ≠ f t → (f (signal_stop P u)).signum = none) ∧
    (∀ w ∈ watchers P (signal_stop P s), w.signum = none) ∧
    (∀ n, dispatch_count P n (signal_stop P s) = 0 ∧
      loop_deliver P n (signal_stop P s) = some (signal_stop P s)) ∧
    (watchers P (signal_stop P s)).map (fun w => w.registered)
      = (watchers P s).map (fun w => w.registered) ∧
    (P.WF → all_registered P s = true → ∀ n ∈ P.monitored,
      dispatch_count P n (signal_start P (signal_stop P s)) = 1 ∧
      loop_deliver P n (signal_start P (signal_stop P s))
        = on_signal P (n : Int) (signal_start P (signal_stop P s))) := by
  have hsk := reachable_skipped_unbound hs
  have hun := signal_stop_all_unbound P s hsk
  refine ⟨?_, hun, fun n => no_dispatch_of_unbound P n _ hun, signal_stop_registered P s, ?_⟩
  · intro f hf t u hne
    obtain ⟨a1, a2, a3, a4, a5, a6⟩ := signal_start_watchers P t
    obtain ⟨b1, b2, b3, b4, b5, b6⟩ := signal_stop_watchers P u
    simp only [List.mem_cons, List.mem_singleton, List.not_mem_nil, or_false] at hf
    rcases hf with rfl | rfl | rfl | rfl | rfl | rfl
    · rw [a1] at hne; rw [b1]; exact stop_if_defined_of_started _ _ _ hne
    · rw [b2]; rfl
    · rw [a3] at hne; rw [b3]; exact stop_if_defined_of_started _ _ _ hne
    · rw [b4]; rfl
    · rw [a5] at hne; rw [b5]; exact stop_if_defined_of_started _ _ _ hne
    · rw [a6] at hne; rw [b6]; exact stop_if_defined_of_started _ _ _ hne
  · intro hP hreg n hn
    exact started_dispatch_once P hP _ (signal_stop_skipped P s hsk)
      (by rw [signal_stop_all_registered]; exact hreg) n hn

theorem signal_stop_unbinds_witness :
    Reachable linux linux_after_init ∧
    dispatch_count linux 15 linux_after_init = 1 ∧
    dispatch_count linux 15 (signal_stop linux linux_after_init) = 0 ∧
    loop_deliver linux 15 (signal_stop linux linux_after_init)
      = some (signal_stop linux linux_after_init) := by
  have hr : Reachable linux linux_after_init :=
    Reachable.step (.signal_init true) (Reachable.initial sample_buf) rfl
  have h := signal_stop_unbinds linux linux_after_init hr
  exact ⟨hr, by decide, (h.2.2.1 15).1, (h.2.2.1 15).2⟩

/-! ## The dying state -/

/-- C10: the dying state is monotone.  For every state (reachable or not) and every
operation of the subsystem (`signal_init`, `signal_start`, `signal_stop`,
`signal_teardown`, `signal_reject_deadly`, `signal_accept_deadly`, `on_signal` with
any signal number, whatever the gate): the operation returns unless it is `on_signal`
with a negative number in a build that checks assertions; when it returns, `v_dying`
and `v:dying` are still true if they were true before, and either both are unchanged
or the operation was `on_signal` with SIGTERM, SIGQUIT or SIGHUP while the gate was
accepting, it ran `deadly_signal`, and both are now 1. -/
theorem dying_monotone (P : Platform) (op : Op) (s : State) :
    match step P op s with
    | none => ∃ n, op = .on_signal n ∧ n < 0 ∧ P.NDEBUG = false
    | some s1 =>
      (s.v_dying ≠ 0 → s1.v_dying ≠ 0) ∧ (s.VV_DYING ≠ 0 → s1.VV_DYING ≠ 0) ∧
      ((s1.v_dying = s.v_dying ∧ s1.VV_DYING = s.VV_DYING) ∨
        (∃ n, op = .on_signal n ∧
          (n = (P.SIGTERM : Int) ∨ is_case P.SIGQUIT n = true ∨ n = (P.SIGHUP : Int)) ∧
          s.rejecting_deadly = false ∧ s1 = deadly_signal P n s ∧
          s1.v_dying = 1 ∧ s1.VV_DYING = 1)) := by
  cases op with
  | signal_init mask_ok =>
    obtain ⟨h1, h2, -⟩ := signal_init_frame P mask_ok s
    simp [step, h1, h2]
  | signal_start =>
    obtain ⟨h1, h2, -⟩ := signal_start_frame P s
    simp [step, h1, h2]
  | signal_stop =>
    obtain ⟨h1, h2, -⟩ := signal_stop_frame P s
    simp [step, h1, h2]
  | signal_teardown =>
    obtain ⟨h1, h2, -⟩ := signal_teardown_frame P s
    simp [step, h1, h2]
  | signal_reject_deadly => simp [step, signal_reject_deadly]
  | signal_accept_deadly => simp [step, signal_accept_deadly]
  | on_signal n =>
    cases hs1 : on_signal P n s with
    | none =>
      simp only [step, hs1]
      exact ⟨n, rfl, (on_signal_none P n s).mp hs1⟩
    | some s1 =>
      obtain ⟨-, -, -, -, -, -, -, hd⟩ := on_signal_cases P n s s1 hs1
      simp only [step, hs1]
      rcases hd with ⟨h1, h2⟩ | ⟨hn, hr, he, h1, h2⟩
      · exact ⟨by rw [h1]; exact id, by rw [h2]; exact id, Or.inl ⟨h1, h2⟩⟩
      · exact ⟨fun _ => by rw [h1]; decide, fun _ => by rw [h2]; decide,
          Or.inr ⟨n, rfl, hn, hr, he, h1, h2⟩⟩

theorem dying_monotone_witness :
    ∃ s1, step linux (.on_signal 1) (State.initial sample_buf) = some s1 ∧
      s1.v_dying = 1 ∧ s1.VV_DYING = 1 ∧
      step linux .signal_stop s1 = some (signal_stop linux s1) ∧
      (signal_stop linux s1).v_dying ≠ 0 ∧ (signal_stop linux s1).VV_DYING ≠ 0 := by
  have h2 := dying_monotone linux .signal_stop
    (deadly_signal linux 1 (State.initial sample_buf))
  exact ⟨deadly_signal linux 1 (State.initial sample_buf), rfl, rfl, rfl, rfl,
    h2.1 (by decide), h2.2.1 (by decide)⟩

end NvimSignal
